import Mathlib

/-!
# Verification of the geomag-algorithms IAF codec and gap/update engine

This file gives a shallow embedding of the IAF binary codec
(`geomagio/iaf/IAFParser.py`, `geomagio/iaf/IAFWriter.py`,
`geomagio/iaf/IAFFactory.py`), the gap utilities
(`geomagio/TimeseriesUtility.py`) and the update controller
(`geomagio/Controller.py`), together with theorems checking the
specification's claims about them.

Modelling conventions:
* `numpy.float64` sample arrays with NaN for missing data are modelled as
  `List (Option ℚ)` (`none` = NaN).  All arithmetic used by the code on
  non-missing samples is exact decimal arithmetic, faithfully represented
  in `ℚ`.
* `numpy`'s float→int cast (`astype(int)`, `int(...)`) truncates toward
  zero; NaN casts to the int64 minimum on the platforms the code targets.
* `obspy.UTCDateTime` values are modelled by a calendar structure where the
  code only inspects calendar fields, and by rational second counts where
  the code only does linear arithmetic on times.
-/

set_option maxHeartbeats 1000000
set_option linter.unusedVariables false

namespace Geomag

/-- Truncation toward zero, the rounding used by `numpy.ndarray.astype(int)`
and Python's `int(float)`. -/
def truncInt (q : ℚ) : ℤ := if 0 ≤ q then ⌊q⌋ else ⌈q⌉

/-- The value produced by `astype(int)` when the float is NaN
(int64 minimum on the platforms targeted by the code). -/
def INT64_MIN : ℤ := -(2 ^ 63)

/-- `astype(int)` on a possibly-NaN float64 sample. -/
def npAstypeInt : Option ℚ → ℤ
  | none => INT64_MIN
  | some q => truncInt q

end Geomag

namespace Geomag.Controller

/-- A gap triple `[start of gap, end of gap, next sample]` as produced by
`TimeseriesUtility.get_trace_gaps` (the Python code uses 3-element lists). -/
structure Gap where
  gstart : ℚ
  gend : ℚ
  gnext : ℚ
deriving DecidableEq

instance : Inhabited Gap := ⟨⟨0, 0, 0⟩⟩

/-- The backward-extension condition of `Controller.run_as_update`
(`Controller.py` lines 102-105):

    if ((not len(source_gaps) or
            len(source_gaps) and source_gaps[0][0] != options.starttime)
            and
            len(target_gaps) and target_gaps[0][0] == options.starttime):

Python `and`/`or` short-circuit on the truthiness of `len(...)`, so the
first element is only inspected when the list is non-empty. -/
def shouldRecurse (starttime : ℚ) (source_gaps target_gaps : List Gap) : Bool :=
  (source_gaps.isEmpty ||
    (!source_gaps.isEmpty && decide ((source_gaps.headD default).gstart ≠ starttime)))
  && (!target_gaps.isEmpty && decide ((target_gaps.headD default).gstart = starttime))

/-- The shifted window used for the recursive call
(`Controller.py` lines 106-110): the new start is one full window length
earlier, the new end is one sampling interval (`get_seconds_of_interval`,
a collaborator not under `src/`) before the current start. -/
def recurseWindow (starttime endtime interval_seconds : ℚ) : ℚ × ℚ :=
  (starttime - (endtime - starttime), starttime - interval_seconds)

end Geomag.Controller

namespace Geomag.IAFWriter

/-- A calendar timestamp as inspected by `IAFWriter._check_month`
(obspy `UTCDateTime`; only the fields the code reads are kept, at minute
resolution as used by the writer). -/
structure UTCDT where
  year : ℤ
  month : ℤ
  day : ℤ
  hour : ℤ
  minute : ℤ
deriving DecidableEq

/-- Gregorian leap-year rule (obspy calendar arithmetic). -/
def isLeap (y : ℤ) : Bool := (y % 4 = 0 && y % 100 ≠ 0) || y % 400 = 0

/-- Days in a Gregorian month. -/
def daysInMonth (y m : ℤ) : ℤ :=
  if m = 2 then (if isLeap y then 29 else 28)
  else if m = 4 ∨ m = 6 ∨ m = 9 ∨ m = 11 then 30
  else 31

/-- Add 60 seconds (one minute) to a calendar timestamp, with rollover
(`endtime + 60` in the writer). -/
def addMinute (t : UTCDT) : UTCDT :=
  if t.minute + 1 < 60 then { t with minute := t.minute + 1 }
  else if t.hour + 1 < 24 then { t with hour := t.hour + 1, minute := 0 }
  else if t.day + 1 ≤ daysInMonth t.year t.month then
    { t with day := t.day + 1, hour := 0, minute := 0 }
  else if t.month + 1 ≤ 12 then
    { t with month := t.month + 1, day := 1, hour := 0, minute := 0 }
  else ⟨t.year + 1, 1, 1, 0, 0⟩

/-- `IAFWriter._check_month` (`IAFWriter.py` lines 66-86): returns `true`
when no exception is raised.  The code raises iff
`(end.month - starttime.month) != 1 or end.day != 1`
where `end = endtime + 60`. -/
def check_month (starttime endtime : UTCDT) : Bool :=
  let e := addMinute endtime
  !(decide ((e.month - starttime.month ≠ 1) ∨ e.day ≠ 1))

end Geomag.IAFWriter

namespace Geomag

/-- Modelled from the spec: the supplied series "runs from the first minute
of the 1st of some month through one minute before the 1st of the next
month".  Used to compare `check_month` against the claimed behavior. -/
def coversFullCalendarMonth (starttime endtime : IAFWriter.UTCDT) : Bool :=
  decide (starttime.day = 1 ∧ starttime.hour = 0 ∧ starttime.minute = 0 ∧
    IAFWriter.addMinute endtime =
      (if starttime.month = 12 then ⟨starttime.year + 1, 1, 1, 0, 0⟩
       else ⟨starttime.year, starttime.month + 1, 1, 0, 0⟩))

end Geomag

namespace Geomag.IAFParser

/-- Sentinel for a day where the whole channel is missing (sensor absent). -/
def EIGHTS : ℚ := 888888

/-- Sentinel for a missing sample. -/
def NINES : ℚ := 999999

/-- Sentinel for a missing K-index sample. -/
def K_NINES : ℚ := 999

/-- Fixed length of one IAF day record in bytes. -/
def REC_LENGTH : ℕ := 23552

/-- `IAFParser._post_process` for one channel (`IAFParser.py` lines 163-181):

    data[data == EIGHTS] = numpy.nan
    data[data == NINES] = numpy.nan
    if channel == 'K':
        data[data == K_NINES] = numpy.nan
    else:
        data = numpy.divide(data, 10.)
-/
def post_process_channel (channel : String) (data : List ℚ) : List (Option ℚ) :=
  let d1 : List (Option ℚ) := data.map (fun x => if x = EIGHTS then none else some x)
  let d2 := d1.map (fun x => x.bind (fun v => if v = NINES then none else some v))
  if channel = "K" then
    d2.map (fun x => x.bind (fun v => if v = K_NINES then none else some v))
  else
    d2.map (fun x => x.map (fun v => v / 10))

end Geomag.IAFParser

namespace Geomag.TimeseriesUtility

/-- The `'average'` entry of `TimeseriesUtility.statistics`
(`TimeseriesUtility.py` lines 159-188): `numpy.nanmean`, the mean of the
non-NaN samples, NaN when every sample is NaN. -/
def statistics_average (data : List (Option ℚ)) : Option ℚ :=
  let vals := data.filterMap id
  if vals.length = 0 then none else some (vals.sum / vals.length)

end Geomag.TimeseriesUtility

namespace Geomag.IAFWriter

/-- `IAFWriter._fill_data`, minute group, one channel
(`IAFWriter.py` lines 193-204):

    data = numpy.multiply(timeseries.select(channel=channel)[0].data, 10)
    if channel == 'G':
        if len(data) == len(data[numpy.isnan(data)]):
            data[numpy.isnan(data)] = IAFParser.EIGHTS
    data[numpy.isnan(data)] = IAFParser.NINES
    self.data = numpy.append(self.data, data.astype(int))
-/
def fill_minute_channel (channel : String) (data : List (Option ℚ)) : List ℤ :=
  let d1 := data.map (Option.map (fun x => x * 10))
  let d2 :=
    if channel = "G" ∧ d1.all Option.isNone = true then
      d1.map (fun x => match x with
        | none => some IAFParser.EIGHTS
        | some v => some v)
    else d1
  let d3 := d2.map (fun x => match x with
    | none => some IAFParser.NINES
    | some v => some v)
  d3.map npAstypeInt

/-- `IAFWriter._fill_data`, hour group, one channel
(`IAFWriter.py` lines 210-221).  `TimeseriesUtility.get_traces` is called
with its default hourly interval, so `hours[h]` is the h-th hourly slice
(60 minute samples) of the day's trace; for `'G'` the 24 values are filled
with the `NINES` sentinel; otherwise the hourly averages are multiplied by
10 and cast with `astype(int)`. -/
def fill_hour_channel (channel : String) (minuteData : List (Option ℚ)) : List ℤ :=
  if channel = "G" then
    (List.replicate 24 (some IAFParser.NINES)).map npAstypeInt
  else
    ((List.range 24).map (fun h =>
      (TimeseriesUtility.statistics_average ((minuteData.drop (60 * h)).take 60)).map
        (fun x => x * 10))).map npAstypeInt

/-- `IAFWriter._fill_data`, day group, one channel
(`IAFWriter.py` lines 222-227):

    days = TimeseriesUtility.get_traces(timeseries.select(channel=channel)[0])
    data[0] = days[0].stats.statistics['average']
    self.data = numpy.append(self.data, data.astype(int))

`get_traces` is called with its default interval `'hours'`, so `days[0]`
is the first *hourly* slice of the day (its first 60 minute samples); the
statistic is appended without any scaling. -/
def fill_day_channel (channel : String) (minuteData : List (Option ℚ)) : ℤ :=
  npAstypeInt (TimeseriesUtility.statistics_average (minuteData.take 60))

/-- `IAFWriter._fill_data`, K group (`IAFWriter.py` lines 230-232):

    data = timeseries.select(channel='K')[0].data[0:8].astype(int)
    data[numpy.isnan(data)] = IAFParser.NINES

The cast happens *before* the NaN check; `numpy.isnan` on an integer
array is everywhere false, so the sentinel substitution never fires. -/
def fill_k_channel (data : List (Option ℚ)) : List ℤ :=
  (data.take 8).map npAstypeInt

/-- Header geodetic field on encode (`IAFWriter._fill_headers`):
`int(float(stats['geodetic_latitude']) * 1000)`. -/
def fill_geodetic (v : ℚ) : ℤ := truncInt (v * 1000)

end Geomag.IAFWriter

namespace Geomag.IAFParser

/-- Header geodetic field on decode (`IAFParser._parse_header`):
`record[2] / 1000.0`. -/
def parse_geodetic (v : ℤ) : ℚ := (v : ℚ) / 1000

/-- Round trip of one minute-group channel through
`IAFWriter._fill_data` and `IAFParser._post_process` (the binary
`struct.pack`/`struct.unpack` layer in between is the identity on the
int32 fields). -/
def minute_roundtrip (channel : String) (data : List (Option ℚ)) : List (Option ℚ) :=
  post_process_channel channel
    ((IAFWriter.fill_minute_channel channel data).map (fun z => (z : ℚ)))

end Geomag.IAFParser

namespace Geomag.TimeseriesUtility

open Geomag.Controller (Gap)

/-- The scan loop of `TimeseriesUtility.get_trace_gaps`
(`TimeseriesUtility.py` lines 49-67), carrying the loop index `i`, the
open-gap state (`gap = None` or `gap = [start]`) and the gaps collected
so far.  Nominal timestamps are `starttime + i * delta`. -/
def gapsLoopAux (starttime delta : ℚ) :
    List (Option ℚ) → ℕ → Option ℚ → List Gap → List Gap
  | [], _, none, gaps => gaps
  | [], i, some g, gaps =>
      gaps ++ [⟨g, starttime + ((i : ℚ) - 1) * delta, starttime + (i : ℚ) * delta⟩]
  | none :: rest, i, none, gaps =>
      gapsLoopAux starttime delta rest (i + 1)
        (some (starttime + (i : ℚ) * delta)) gaps
  | none :: rest, i, some g, gaps =>
      gapsLoopAux starttime delta rest (i + 1) (some g) gaps
  | some _ :: rest, i, none, gaps =>
      gapsLoopAux starttime delta rest (i + 1) none gaps
  | some _ :: rest, i, some g, gaps =>
      gapsLoopAux starttime delta rest (i + 1) none
        (gaps ++ [⟨g, starttime + ((i : ℚ) - 1) * delta, starttime + (i : ℚ) * delta⟩])

/-- `TimeseriesUtility.get_trace_gaps` (`TimeseriesUtility.py` lines 30-68)
on a trace with the given start time, sampling period and data. -/
def get_trace_gaps (starttime delta : ℚ) (data : List (Option ℚ)) : List Gap :=
  gapsLoopAux starttime delta data 0 none []

/-- Modelled from the amended claim: the maximal runs of consecutive
missing samples of a series, as (first index, last index) pairs, in
index order.  Auxiliary scan carrying the index and the open run start. -/
def missingRunsAux : List (Option ℚ) → ℕ → Option ℕ → List (ℕ × ℕ)
  | [], _, none => []
  | [], i, some s => [(s, i - 1)]
  | none :: rest, i, none => missingRunsAux rest (i + 1) (some i)
  | none :: rest, i, some s => missingRunsAux rest (i + 1) (some s)
  | some _ :: rest, i, none => missingRunsAux rest (i + 1) none
  | some _ :: rest, i, some s => (s, i - 1) :: missingRunsAux rest (i + 1) none

/-- Maximal runs of consecutive missing samples. -/
def missingRuns (data : List (Option ℚ)) : List (ℕ × ℕ) := missingRunsAux data 0 none

/-- The gap triple a maximal missing run (first index `a`, last index `b`)
corresponds to: start at sample `a`, end at sample `b`, next sample at
`b + 1`. -/
def runTriple (starttime delta : ℚ) (r : ℕ × ℕ) : Gap :=
  ⟨starttime + (r.1 : ℚ) * delta, starttime + (r.2 : ℚ) * delta,
    starttime + ((r.2 : ℚ) + 1) * delta⟩

/-- Comparison key of `sorted(merged_gaps, key=lambda gap: gap[0])`
(`TimeseriesUtility.py` line 136). -/
def sortGapsLE (a b : Gap) : Bool := decide (a.gstart ≤ b.gstart)

/-- The merge sweep of `TimeseriesUtility.get_merged_gaps`
(`TimeseriesUtility.py` lines 138-155):

    for gap in sorted_gaps:
        if merged_gap is None:
            merged_gap = gap
        elif gap[0] > merged_gap[2]:
            merged_gaps.append(merged_gap)
            merged_gap = gap
        elif gap[0] <= merged_gap[2]:
            if gap[1] > merged_gap[1]:
                merged_gap[1] = gap[1]
                merged_gap[2] = gap[2]
    if merged_gap is not None:
        merged_gaps.append(merged_gap)
-/
def mergeSweep : List Gap → Option Gap → List Gap → List Gap
  | [], none, acc => acc
  | [], some m, acc => acc ++ [m]
  | g :: rest, none, acc => mergeSweep rest (some g) acc
  | g :: rest, some m, acc =>
      if m.gnext < g.gstart then mergeSweep rest (some g) (acc ++ [m])
      else if m.gend < g.gend then mergeSweep rest (some ⟨m.gstart, g.gend, g.gnext⟩) acc
      else mergeSweep rest (some m) acc

/-- `TimeseriesUtility.get_merged_gaps` (`TimeseriesUtility.py` lines
115-156).  The input dictionary of channel/gap-list pairs is modelled as
an association list; the code flattens all channels' gaps, stable-sorts
them by gap start, and sweeps. -/
def get_merged_gaps (gaps : List (String × List Gap)) : List Gap :=
  mergeSweep (((gaps.map Prod.snd).flatten).mergeSort sortGapsLE) none []

/-- Well-formedness of a gap triple as produced by `get_trace_gaps`:
the start is not after the end, and the next-sample marker is not before
the end. -/
def wfGap (g : Gap) : Prop := g.gstart ≤ g.gend ∧ g.gend ≤ g.gnext

instance (g : Gap) : Decidable (wfGap g) := by unfold wfGap; infer_instance

end Geomag.TimeseriesUtility

namespace Geomag.IAFFactory

/-- A decoded obspy trace: channel name and samples (`none` = NaN). -/
structure RTrace where
  channel : String
  rdata : List (Option ℝ)

/-- `stream.select(channel=c)`. -/
def select (stream : List RTrace) (c : String) : List RTrace :=
  stream.filter (fun t => t.channel == c)

/-- Modelled from the spec: `ChannelConverter.get_computed_f_using_squares`
is not under `src/`; per the spec it computes the vector intensity as the
Euclidean combination of the three components.  NaN propagates through
float arithmetic, so the result is missing wherever a component is
missing. -/
noncomputable def get_computed_f_using_squares (x y z : List (Option ℝ)) : List (Option ℝ) :=
  (x.zip (y.zip z)).map (fun p =>
    match p.1, p.2.1, p.2.2 with
    | some a, some b, some c => some (Real.sqrt (a ^ 2 + b ^ 2 + c ^ 2))
    | _, _, _ => none)

/-- `IAFFactory._clean_G_F_channels` (`IAFFactory.py` lines 227-272).
The result is in `Except` because the substitution loop

    for value in xrange(0, len(fv)):
        if numpy.isnan(deltaf[value]) and not numpy.isnan(fv[value]):
            fs[value] = -deltaf[0][value]
            deltaf[0][value] = numpy.isnan

indexes the scalar sample `deltaf[0]` a second time, which raises
`IndexError` as soon as the guard is satisfied; `stream.select(...)[0]`
on an absent channel likewise raises. -/
noncomputable def clean_G_F_channels (version1_flag : Bool) (version : ℚ)
    (channels : String) (stream : List RTrace) : Except String (List RTrace) :=
  if 1 ≤ version ∧ version < 11 / 10 ∧ version1_flag = true then
    .ok (stream.filter (fun t => !(t.channel == "F")))
  else if 2 ≤ version ∧ (channels = "XYZG" ∨ channels = "HDZG") then
    match select stream "Z" with
    | [] => .error "IndexError: list index out of range"
    | z :: _ =>
      let fvE : Except String (List (Option ℝ)) :=
        if channels = "XYZG" then
          match select stream "X", select stream "Y" with
          | x :: _, y :: _ => .ok (get_computed_f_using_squares x.rdata y.rdata z.rdata)
          | _, _ => .error "IndexError: list index out of range"
        else
          -- HDZG: the scalar `0` second argument broadcasts over the series
          match select stream "H" with
          | h :: _ => .ok (get_computed_f_using_squares h.rdata
              (List.replicate h.rdata.length (some 0)) z.rdata)
          | [] => .error "IndexError: list index out of range"
      match fvE with
      | .error e => .error e
      | .ok fv =>
        match select stream "G" with
        | [] => .error "IndexError: list index out of range"
        | deltaf :: _ =>
          let fs := (fv.zip deltaf.rdata).map (fun p =>
            match p.1, p.2 with
            | some a, some b => some (a - b)
            | _, _ => none)
          if (List.range fv.length).any (fun i =>
              (deltaf.rdata.getD i none).isNone && (fv.getD i none).isSome) then
            .error "IndexError: invalid index to scalar variable"
          else
            .ok (stream ++ [⟨"F", fs⟩])
  else .ok stream

end Geomag.IAFFactory

namespace Geomag.IAFParser

/-- Split a byte string into consecutive 4-byte fields: every field of the
IAF struct format string `IAFSTRING` (4-byte strings and int32s) is 4
bytes wide, 5888 fields in all. -/
def toWords : List ℕ → List (List ℕ)
  | b0 :: b1 :: b2 :: b3 :: rest => [b0, b1, b2, b3] :: toWords rest
  | _ => []

/-- Little-endian signed int32 read of one 4-byte field. -/
def leInt32 (w : List ℕ) : ℤ :=
  let u := w.getD 0 0 + 256 * w.getD 1 0 + 65536 * w.getD 2 0 + 16777216 * w.getD 3 0
  if u < 2 ^ 31 then (u : ℤ) else (u : ℤ) - 2 ^ 32

/-- `struct.unpack(IAFSTRING, chunk)`: raises `struct.error` unless the
chunk is exactly one record (23552 bytes) long. -/
def struct_unpack (chunk : List ℕ) : Except String (List (List ℕ)) :=
  if chunk.length = REC_LENGTH then .ok (toWords chunk) else .error "struct.error"

/-- The header fields read by `IAFParser._parse_header`
(`IAFParser.py` lines 81-105); strings are kept as raw 4-byte fields. -/
structure IAFHeader where
  station : List ℕ
  date : ℤ
  geodetic_latitude : ℚ
  geodetic_longitude : ℚ
  elevation : ℤ
  channels : List ℕ
  agency_name : List ℕ
  d_conversion : ℤ
  data_quality : List ℕ
  instrumentation : List ℕ
  k_9 : ℤ
  sensor_sampling_rate : ℚ
  sensor_orientation : List ℕ
  publication_date : List ℕ
  version : ℤ

instance : Inhabited IAFHeader :=
  ⟨⟨[], 0, 0, 0, 0, [], [], 0, [], [], 0, 0, [], [], 0⟩⟩

/-- `IAFParser._parse_header`: field positions follow the unpacked record
(`record[0]` station, `record[1]` date, ..., `record[14]` version). -/
def parse_header_fields (record : List (List ℕ)) : IAFHeader where
  station := record.getD 0 []
  date := leInt32 (record.getD 1 [])
  geodetic_latitude := (leInt32 (record.getD 2 []) : ℚ) / 1000
  geodetic_longitude := (leInt32 (record.getD 3 []) : ℚ) / 1000
  elevation := leInt32 (record.getD 4 [])
  channels := record.getD 5 []
  agency_name := record.getD 6 []
  d_conversion := leInt32 (record.getD 7 [])
  data_quality := record.getD 8 []
  instrumentation := record.getD 9 []
  k_9 := leInt32 (record.getD 10 [])
  sensor_sampling_rate := (leInt32 (record.getD 11 []) : ℚ) / 1000
  sensor_orientation := record.getD 12 []
  publication_date := record.getD 13 []
  version := leInt32 (record.getD 14 [])

/-- `IAFParser._parse_channels` (`IAFParser.py` lines 107-120): the first
four bytes of the channels header (a 4-byte field, so the `len > 3`
branch is always taken; byte `0` models the `''` placeholder), then the
K-index channel (byte 75 = `'K'`). -/
def parse_channels (h : IAFHeader) : List ℕ :=
  [h.channels.getD 0 0, h.channels.getD 1 0, h.channels.getD 2 0] ++
    (if h.channels.length > 3 then [h.channels.getD 3 0] else [0]) ++ [75]

/-- Python dict assignment `d[k] = v` on an association list. -/
def dictSet (d : List (ℕ × List ℤ)) (k : ℕ) (v : List ℤ) : List (ℕ × List ℤ) :=
  if d.any (fun p => p.1 == k) then d.map (fun p => if p.1 = k then (k, v) else p)
  else d ++ [(k, v)]

/-- Python `d[k].extend(vs)`; in `_parse_data` the key is always
initialized before it is extended. -/
def dictExtend (d : List (ℕ × List ℤ)) (k : ℕ) (vs : List ℤ) : List (ℕ × List ℤ) :=
  if d.any (fun p => p.1 == k) then d.map (fun p => if p.1 = k then (p.1, p.2 ++ vs) else p)
  else d ++ [(k, vs)]

/-- Int32 fields `record[a:b]` of an unpacked record. -/
def recInts (record : List (List ℕ)) (a b : ℕ) : List ℤ :=
  ((record.drop a).take (b - a)).map leInt32

/-- The parser state (`IAFParser.__init__` plus the attributes set while
parsing).  `starttime`/`endtime` keep the raw header date ints (their
conversion through `obspy.UTCDateTime` is an external collaborator);
`records` counts the day-loop iterations of `parse`. -/
structure ParserState where
  headers : IAFHeader
  initialized : Bool
  starttime : ℤ
  endtime : ℤ
  channels : List ℕ
  data : List (ℕ × List ℤ)
  records : ℕ

/-- State of a freshly constructed `IAFParser`. -/
def initState : ParserState := ⟨default, false, 0, 0, [], [], 0⟩

/-- `IAFParser._parse_data` (`IAFParser.py` lines 122-161). -/
def parse_data (interval : String) (record : List (List ℕ)) (st : ParserState) :
    ParserState :=
  let st :=
    if st.initialized = false then
      { st with
        initialized := true
        starttime := st.headers.date
        data := st.channels.foldl (fun d c => dictSet d c []) st.data }
    else st
  let st := { st with endtime := st.headers.date }
  let st :=
    if interval = "minute" then
      (List.range 4).foldl (fun s cnt =>
        let vs := recInts record (16 + 1440 * cnt) (16 + 1440 * (cnt + 1))
        { s with data := dictExtend s.data (s.channels.getD cnt 0) vs }) st
    else if interval = "hourly" then
      (List.range 4).foldl (fun s cnt =>
        let vs := recInts record (5776 + 24 * cnt) (5776 + 24 * (cnt + 1))
        { s with data := dictExtend s.data (s.channels.getD cnt 0) vs }) st
    else if interval = "daily" then
      (List.range 4).foldl (fun s cnt =>
        let vs := recInts record (5872 + cnt) (5872 + (cnt + 1))
        { s with data := dictExtend s.data (s.channels.getD cnt 0) vs }) st
    else st
  { st with data := dictExtend st.data (st.channels.getD 4 0) (recInts record 5876 5884) }

/-- One iteration of the day loop in `IAFParser.parse`
(`IAFParser.py` lines 70-77): header, channels on day 0, then data. -/
def parse_record (interval : String) (day : ℕ) (record : List (List ℕ))
    (st : ParserState) : ParserState :=
  let st :=
    { st with
      headers := parse_header_fields record
      records := st.records + 1 }
  let st := if day = 0 then { st with channels := parse_channels st.headers } else st
  parse_data interval record st

/-- The day loop of `IAFParser.parse`. -/
def parseLoop (data : List ℕ) (interval : String) :
    List ℕ → ParserState → Except String ParserState
  | [], st => .ok st
  | day :: rest, st =>
      match struct_unpack ((data.drop (day * REC_LENGTH)).take REC_LENGTH) with
      | .error e => .error e
      | .ok record => parseLoop data interval rest (parse_record interval day record st)

/-- The channel name (a one-character string) for a channel byte. -/
def byteChannelName (b : ℕ) : String := String.mk [Char.ofNat b]

/-- `IAFParser._post_process` over the whole data dict. -/
def post_process_state (st : ParserState) : List (ℕ × List (Option ℚ)) :=
  st.data.map (fun p =>
    (p.1, post_process_channel (byteChannelName p.1) (p.2.map (fun z => (z : ℚ)))))

/-- `IAFParser.parse` (`IAFParser.py` lines 57-79):

    days = int(len(data)/REC_LENGTH)
    for day in range(0, days):
        record = struct.unpack(IAFSTRING, data[start:end])
        ...
    self._post_process()
-/
def parse (data : List ℕ) (interval : String) :
    Except String (ParserState × List (ℕ × List (Option ℚ))) :=
  match parseLoop data interval (List.range (data.length / REC_LENGTH)) initState with
  | .error e => .error e
  | .ok st => .ok (st, post_process_state st)

end Geomag.IAFParser

/-! ## Helper lemmas -/

namespace Geomag

theorem truncInt_intCast (n : ℤ) : truncInt (n : ℚ) = n := by
  unfold truncInt
  split
  · exact Int.floor_intCast n
  · exact Int.ceil_intCast n

theorem abs_truncInt_sub_lt_one (q : ℚ) : |(truncInt q : ℚ) - q| < 1 := by
  unfold truncInt
  split
  · have h1 : (⌊q⌋ : ℚ) ≤ q := Int.floor_le q
    have h2 : q - 1 < (⌊q⌋ : ℚ) := Int.sub_one_lt_floor q
    rw [abs_sub_lt_iff]
    constructor <;> linarith
  · have h1 : q ≤ (⌈q⌉ : ℚ) := Int.le_ceil q
    have h2 : (⌈q⌉ : ℚ) < q + 1 := Int.ceil_lt_add_one q
    rw [abs_sub_lt_iff]
    constructor <;> linarith

/-- Scaled encode (multiply by `s`, truncate) followed by scaled decode
(divide by `s`) recovers the value to within `1/s`. -/
theorem abs_truncInt_scale_div_sub_lt (s x : ℚ) (hs : 0 < s) :
    |(truncInt (x * s) : ℚ) / s - x| < 1 / s := by
  have h := abs_truncInt_sub_lt_one (x * s)
  have hεq : (truncInt (x * s) : ℚ) / s - x = ((truncInt (x * s) : ℚ) - x * s) / s := by
    field_simp
    ring
  rw [hεq, abs_div, abs_of_pos hs]
  gcongr

end Geomag

/-! ## C10: the full-month guard of the IAF writer -/

namespace Geomag

/-- C10: the claim says `IAFWriter.write` succeeds exactly when the series
spans a full calendar month, including a month at a year boundary such as
December.  Evaluating `_check_month` at December 2015 (starttime
2015-12-01 00:00, endtime 2015-12-31 23:59): the window covers exactly one
full calendar month, yet the check raises, because
`(end.month - starttime.month) != 1` compares raw month numbers and
`1 - 12 ≠ 1` at the year boundary.  Conversely a window that merely ends
at a month boundary (2016-01-05 00:00 through 2016-01-31 23:59) is not a
full calendar month yet passes the check. -/
theorem C10_check_month_december_bug :
    coversFullCalendarMonth ⟨2015, 12, 1, 0, 0⟩ ⟨2015, 12, 31, 23, 59⟩ = true ∧
    IAFWriter.check_month ⟨2015, 12, 1, 0, 0⟩ ⟨2015, 12, 31, 23, 59⟩ = false ∧
    coversFullCalendarMonth ⟨2016, 1, 5, 0, 0⟩ ⟨2016, 1, 31, 23, 59⟩ = false ∧
    IAFWriter.check_month ⟨2016, 1, 5, 0, 0⟩ ⟨2016, 1, 31, 23, 59⟩ = true := by
  decide

end Geomag

/-! ## C8: the backward-recursion condition of the update controller -/

namespace Geomag

/-- C8: `run_as_update` recurses backward exactly when the target's first
merged gap starts at `starttime` and the source's merged gaps do not
(including when the source has no gaps at all); the recursive window is
shifted a full window length earlier and ends one sampling interval before
the current start.  In particular, when the target's gaps do not begin at
`starttime` (the target has data there), the condition is false and no
recursive call is made. -/
theorem C8_backward_recursion_condition :
    ∀ (st et isec : ℚ) (sg tg : List Controller.Gap),
      (Controller.shouldRecurse st sg tg = true ↔
        ((∃ g rest, tg = g :: rest ∧ g.gstart = st) ∧
          (sg = [] ∨ ∃ g rest, sg = g :: rest ∧ g.gstart ≠ st))) ∧
      Controller.recurseWindow st et isec = (st - (et - st), st - isec) := by
  intro st et isec sg tg
  refine ⟨?_, rfl⟩
  cases sg with
  | nil =>
    cases tg with
    | nil => simp [Controller.shouldRecurse]
    | cons gt rest =>
      simp [Controller.shouldRecurse, List.isEmpty, List.headD]
  | cons gs rests =>
    cases tg with
    | nil => simp [Controller.shouldRecurse]
    | cons gt rest =>
      simp [Controller.shouldRecurse, List.isEmpty, List.headD]
      tauto

end Geomag

/-! ## C9: record-count behavior of the multi-record decode -/

namespace Geomag.IAFParser

theorem parse_data_records (interval : String) (record : List (List ℕ))
    (st : ParserState) : (parse_data interval record st).records = st.records := by
  have hfold : ∀ (f : ParserState → ℕ → List (ℕ × List ℤ)) (l : List ℕ) (s : ParserState),
      (l.foldl (fun s cnt => { s with data := f s cnt }) s).records = s.records := by
    intro f l
    induction l with
    | nil => intro s; rfl
    | cons a t ih => intro s; exact ih _
  unfold parse_data
  split_ifs <;> simp [hfold]

theorem parse_record_records (interval : String) (day : ℕ) (record : List (List ℕ))
    (st : ParserState) : (parse_record interval day record st).records = st.records + 1 := by
  unfold parse_record
  rw [parse_data_records]
  split_ifs <;> rfl

theorem parseLoop_ok (data : List ℕ) (interval : String) :
    ∀ (l : List ℕ) (st : ParserState),
      (∀ d ∈ l, (d + 1) * REC_LENGTH ≤ data.length) →
      ∃ st2, parseLoop data interval l st = .ok st2 ∧
        st2.records = st.records + l.length := by
  intro l
  induction l with
  | nil => exact fun st h => ⟨st, rfl, by simp⟩
  | cons day rest ih =>
    intro st h
    have hd1 : (day + 1) * REC_LENGTH ≤ data.length := h day (List.mem_cons_self _ _)
    have hd2 : day * REC_LENGTH + REC_LENGTH ≤ data.length := by
      rw [add_one_mul] at hd1
      exact hd1
    have hlen : ((data.drop (day * REC_LENGTH)).take REC_LENGTH).length = REC_LENGTH := by
      simp only [List.length_take, List.length_drop]
      omega
    obtain ⟨st2, hrun, hrec⟩ :=
      ih (parse_record interval day (toWords ((data.drop (day * REC_LENGTH)).take REC_LENGTH)) st)
        (fun d hd => h d (List.mem_cons_of_mem _ hd))
    refine ⟨st2, ?_, ?_⟩
    · simp only [parseLoop, struct_unpack, hlen, if_pos]
      exact hrun
    · rw [hrec, parse_record_records]
      simp [List.length_cons]
      omega

/-- C9 (amended): `IAFParser.parse` never fails on grounds of byte length:
for every input byte string it decodes exactly `⌊length / 23552⌋` complete
records (the trailing `length mod 23552` bytes are silently ignored); in
particular an input of exactly one record length decodes a single
record. -/
theorem C9_parse_total_and_record_count :
    ∀ (data : List ℕ) (interval : String),
      ∃ st proc, parse data interval = .ok (st, proc) ∧
        st.records = data.length / REC_LENGTH := by
  intro data interval
  have hbound : ∀ d ∈ List.range (data.length / REC_LENGTH),
      (d + 1) * REC_LENGTH ≤ data.length := by
    intro d hd
    have hdlt : d < data.length / REC_LENGTH := List.mem_range.mp hd
    have h1 : (d + 1) * REC_LENGTH ≤ (data.length / REC_LENGTH) * REC_LENGTH :=
      Nat.mul_le_mul_right _ hdlt
    exact h1.trans (Nat.div_mul_le_self _ _)
  obtain ⟨st2, hrun, hrec⟩ :=
    parseLoop_ok data interval (List.range (data.length / REC_LENGTH)) initState hbound
  refine ⟨st2, post_process_state st2, ?_, ?_⟩
  · simp [parse, hrun]
  · simpa [initState] using hrec

/-- C9 (counterexample to the claim as stated): the input `[0]` has length
1, which is not a multiple of the 23552-byte record size, yet the
multi-record decode returns a parsed result instead of failing — the day
loop simply runs for `int(len(data)/REC_LENGTH) = 0` iterations. -/
theorem C9_counterexample_nonmultiple_length_parses :
    (parse [0] "minute").isOk = true ∧ 1 % REC_LENGTH ≠ 0 := by
  exact ⟨rfl, by decide⟩

end Geomag.IAFParser

/-! ## Sentinel and scaling behavior of the writer and parser -/

namespace Geomag

theorem truncInt_eq_of_intCast (n : ℤ) (q : ℚ) (h : q = (n : ℚ)) : truncInt q = n := by
  rw [h, truncInt_intCast]

theorem truncInt_999999 : truncInt (999999 : ℚ) = 999999 :=
  truncInt_eq_of_intCast _ _ (by norm_num)

theorem truncInt_888888 : truncInt (888888 : ℚ) = 888888 :=
  truncInt_eq_of_intCast _ _ (by norm_num)

end Geomag

namespace Geomag.IAFWriter

/-- `_fill_data`'s minute group, as a pointwise map: a present sample is
scaled by 10 and truncated; a missing sample becomes `888888` when the
channel is `'G'` and the whole series is missing, `999999` otherwise. -/
theorem fill_minute_channel_eq (channel : String) (data : List (Option ℚ)) :
    fill_minute_channel channel data = data.map (fun x => match x with
      | none => if channel = "G" ∧ data.all Option.isNone = true then (888888 : ℤ)
          else 999999
      | some v => truncInt (v * 10)) := by
  unfold fill_minute_channel
  have hall : (data.map (Option.map (fun x => x * 10))).all Option.isNone
      = data.all Option.isNone := by
    rw [List.all_map]
    congr 1
    funext x
    cases x <;> rfl
  simp only [hall]
  by_cases hc : channel = "G" ∧ data.all Option.isNone = true
  · rw [if_pos hc]
    simp only [List.map_map]
    apply List.map_congr_left
    intro x hx
    rcases hc with ⟨hg, hnone⟩
    rw [List.all_eq_true] at hnone
    have hx2 := hnone x hx
    cases x with
    | none =>
      simp only [Function.comp, Option.map_none]
      rw [if_pos ⟨hg, by rw [List.all_eq_true]; intro y hy; exact hnone y hy⟩]
      exact Geomag.truncInt_888888
    | some v => simp at hx2
  · rw [if_neg hc]
    simp only [List.map_map]
    apply List.map_congr_left
    intro x hx
    cases x with
    | none =>
      simp only [Function.comp, Option.map_none]
      rw [if_neg hc]
      exact Geomag.truncInt_999999
    | some v =>
      simp [Function.comp, npAstypeInt]

end Geomag.IAFWriter

namespace Geomag.IAFParser

/-- `_post_process`, as a pointwise map: sentinels (`888888`, `999999`,
and additionally `999` on the K channel) become missing; all other values
are divided by 10 except on the K channel, which is passed through. -/
theorem post_process_channel_eq (channel : String) (data : List ℚ) :
    post_process_channel channel data = data.map (fun v =>
      if v = 888888 ∨ v = 999999 ∨ (channel = "K" ∧ v = 999) then none
      else if channel = "K" then some v else some (v / 10)) := by
  unfold post_process_channel
  by_cases hk : channel = "K"
  · rw [if_pos hk]
    simp only [List.map_map]
    apply List.map_congr_left
    intro v hv
    simp only [Function.comp, EIGHTS, NINES, K_NINES, hk]
    split_ifs <;> simp_all <;> tauto
  · rw [if_neg hk]
    simp only [List.map_map]
    apply List.map_congr_left
    intro v hv
    simp only [Function.comp, EIGHTS, NINES, K_NINES]
    split_ifs <;> simp_all

end Geomag.IAFParser

/-! ## C2: sentinel handling on decode and encode -/

namespace Geomag

/-- C2 (amended): on decode every sample equal to `888888` or `999999`
(and `999` on the K channel) maps to missing and everything else is
divided by 10 (passed through on K).  On encode, a missing *minute* sample
is written as `999999`, except that the `'G'` channel's minute series is
written as all `888888` when it is entirely missing — an entirely-missing
minute series of any other channel is still written as `999999`s.  Missing
K samples are cast directly with `astype(int)` (yielding the int64
minimum, not the sentinel), because the cast happens before the NaN
substitution. -/
theorem C2_sentinel_mapping :
    (∀ (channel : String) (data : List ℚ),
      IAFParser.post_process_channel channel data = data.map (fun v =>
        if v = 888888 ∨ v = 999999 ∨ (channel = "K" ∧ v = 999) then none
        else if channel = "K" then some v else some (v / 10))) ∧
    (∀ (channel : String) (data : List (Option ℚ)),
      IAFWriter.fill_minute_channel channel data = data.map (fun x => match x with
        | none => if channel = "G" ∧ data.all Option.isNone = true then (888888 : ℤ)
            else 999999
        | some v => truncInt (v * 10))) ∧
    (∀ data : List (Option ℚ),
      IAFWriter.fill_k_channel data = (data.take 8).map npAstypeInt) ∧
    npAstypeInt none ≠ 999999 := by
  refine ⟨IAFParser.post_process_channel_eq, IAFWriter.fill_minute_channel_eq,
    fun _ => rfl, ?_⟩
  decide

/-- C2 (counterexample to the claim as stated): the minute channel `'X'`
with an entirely-missing series is encoded as `999999`s, not the claimed
`888888`s (only `'G'` gets the `888888` substitution); and a missing
K-index sample is cast to the int64 minimum rather than written as
`999999`. -/
theorem C2_counterexample_non_G_all_missing :
    IAFWriter.fill_minute_channel "X" [none, none] = [999999, 999999] ∧
    ¬ (([999999, 999999] : List ℤ) = [888888, 888888]) ∧
    IAFWriter.fill_k_channel [none] = [-(2 ^ 63)] ∧ ((-(2 ^ 63) : ℤ) ≠ 999999) := by
  refine ⟨?_, by decide, ?_, by decide⟩
  · rw [IAFWriter.fill_minute_channel_eq]
    have hng : ¬("X" = "G" ∧ ([none, none] : List (Option ℚ)).all Option.isNone = true) :=
      fun h => absurd h.1 (by decide)
    simp [hng]
  · rfl

end Geomag

/-! ## C5 and C3: what the writer emits for each sample group -/

namespace Geomag

theorem filterMap_id_replicate_some (n : ℕ) (a : ℚ) :
    (List.replicate n (some a)).filterMap id = List.replicate n a := by
  induction n with
  | zero => rfl
  | succ k ih => simp [List.replicate_succ, List.filterMap_cons, ih]

theorem statistics_average_replicate (n : ℕ) (a : ℚ) (hn : n ≠ 0) :
    TimeseriesUtility.statistics_average (List.replicate n (some a)) = some a := by
  unfold TimeseriesUtility.statistics_average
  rw [filterMap_id_replicate_some]
  simp only [List.length_replicate, List.sum_replicate]
  rw [if_neg hn]
  congr 1
  rw [nsmul_eq_mul, mul_div_cancel_left₀ a (show (n : ℚ) ≠ 0 by exact_mod_cast hn)]

/-- C5 (amended): only the *hourly* delta-F (`'G'`) samples are
unconditionally written as the `999999` missing sentinel.  The minute G
samples are taken from the supplied series (scaled by 10, with missing
samples mapped to `999999`, or the whole series to `888888` when it is
entirely missing), and the day G sample is the day statistic (the unscaled
average of the first hourly slice), exactly as for any other channel. -/
theorem C5_G_written_values :
    (∀ minuteData : List (Option ℚ),
      IAFWriter.fill_hour_channel "G" minuteData = List.replicate 24 (999999 : ℤ)) ∧
    (∀ data : List (Option ℚ),
      IAFWriter.fill_minute_channel "G" data = data.map (fun x => match x with
        | none => if data.all Option.isNone = true then (888888 : ℤ) else 999999
        | some v => truncInt (v * 10))) ∧
    (∀ d : List (Option ℚ),
      IAFWriter.fill_day_channel "G" d =
        npAstypeInt (TimeseriesUtility.statistics_average (d.take 60))) := by
  refine ⟨?_, ?_, fun _ => rfl⟩
  · intro d
    unfold IAFWriter.fill_hour_channel
    rw [if_pos rfl, List.map_replicate]
    rw [show npAstypeInt (some IAFParser.NINES) = 999999 from truncInt_999999]
  · intro data
    rw [IAFWriter.fill_minute_channel_eq]
    apply List.map_congr_left
    intro x hx
    cases x with
    | none => simp
    | some v => rfl

/-- C5 (counterexample to the claim as stated): minute and day samples of
the `'G'` channel are written from the supplied series, not as the missing
sentinel: minute values 1.5 and 2.0 are emitted as 15 and 20, and a day
with constant value 2.0 emits the day sample 2. -/
theorem C5_counterexample_G_minute_written :
    IAFWriter.fill_minute_channel "G" [some (3 / 2), some 2] = [15, 20] ∧
    ¬ (([15, 20] : List ℤ) = [999999, 999999]) ∧
    IAFWriter.fill_day_channel "G" (List.replicate 60 (some 2)) = 2 ∧
    ((2 : ℤ) ≠ 999999) := by
  refine ⟨?_, by decide, ?_, by decide⟩
  · rw [IAFWriter.fill_minute_channel_eq]
    simp only [List.map]
    rw [show truncInt ((3 / 2 : ℚ) * 10) = 15 from
      truncInt_eq_of_intCast _ _ (by norm_num)]
    rw [show truncInt ((2 : ℚ) * 10) = 20 from
      truncInt_eq_of_intCast _ _ (by norm_num)]
  · show npAstypeInt
      (TimeseriesUtility.statistics_average ((List.replicate 60 (some (2 : ℚ))).take 60)) = 2
    rw [List.take_replicate]
    norm_num
    rw [statistics_average_replicate 60 2 (by norm_num)]
    exact truncInt_eq_of_intCast _ _ (by norm_num)

/-- C3: evaluating the writer and parser on the day group shows the
scaling claim fails there.  A channel whose minute samples are constantly
2.0 has its day sample written as `2` — the day statistic is appended with
no multiplication by 10 (`IAFWriter.py` lines 222-227) — while the minute
group is written scaled (2.0 ↦ 20) and the parser divides every decoded
sample by 10, so the written day value 2 decodes to 0.2 ≠ 2.0. -/
theorem C3_day_group_not_scaled :
    IAFWriter.fill_day_channel "X" (List.replicate 1440 (some 2)) = 2 ∧
    IAFWriter.fill_minute_channel "X" [some 2] = [20] ∧
    IAFParser.post_process_channel "X" [2] = [some (1 / 5)] ∧
    ((1 / 5 : ℚ) ≠ 2) := by
  refine ⟨?_, ?_, ?_, by norm_num⟩
  · show npAstypeInt
      (TimeseriesUtility.statistics_average ((List.replicate 1440 (some (2 : ℚ))).take 60)) = 2
    rw [List.take_replicate]
    norm_num
    rw [statistics_average_replicate 60 2 (by norm_num)]
    exact truncInt_eq_of_intCast _ _ (by norm_num)
  · rw [IAFWriter.fill_minute_channel_eq]
    simp only [List.map]
    rw [show truncInt ((2 : ℚ) * 10) = 20 from
      truncInt_eq_of_intCast _ _ (by norm_num)]
  · rw [IAFParser.post_process_channel_eq]
    have hxk : ¬ (("X" : String) = "K") := by decide
    simp only [List.map]
    rw [if_neg (by push_neg; refine ⟨by norm_num, by norm_num, fun h => absurd h hxk⟩)]
    rw [if_neg hxk]
    norm_num

end Geomag

/-! ## C1: round-trip precision of the fixed-point scaling -/

namespace Geomag

theorem truncInt_nine_tenths : truncInt (9 / 10 : ℚ) = 0 := by
  unfold truncInt
  rw [if_pos (by norm_num), Int.floor_eq_iff]
  constructor <;> norm_num

/-- C1 (amended): decode-of-encode reproduces each non-missing sample of a
×10-scaled channel to within strictly less than 0.1 — the full scaling
resolution, twice the claimed 0.05, because the writer *truncates*
(`astype(int)`) rather than rounds — provided the truncated scaled value
does not collide with a sentinel; likewise the ×1000-scaled geodetic
header fields are reproduced to within 0.001. -/
theorem C1_roundtrip_resolution :
    (∀ (channel : String) (x : ℚ), channel ≠ "K" →
      truncInt (x * 10) ≠ 888888 → truncInt (x * 10) ≠ 999999 →
      IAFParser.minute_roundtrip channel [some x]
          = [some ((truncInt (x * 10) : ℚ) / 10)] ∧
      |((truncInt (x * 10) : ℚ) / 10) - x| < 1 / 10) ∧
    (∀ v : ℚ, |IAFParser.parse_geodetic (IAFWriter.fill_geodetic v) - v| < 1 / 1000) := by
  constructor
  · intro c x hk h8 h9
    constructor
    · unfold IAFParser.minute_roundtrip
      rw [IAFWriter.fill_minute_channel_eq]
      simp only [List.map]
      rw [IAFParser.post_process_channel_eq]
      simp only [List.map]
      have hc8 : ¬ (((truncInt (x * 10) : ℤ) : ℚ) = 888888) := by
        intro h; exact h8 (by exact_mod_cast h)
      have hc9 : ¬ (((truncInt (x * 10) : ℤ) : ℚ) = 999999) := by
        intro h; exact h9 (by exact_mod_cast h)
      rw [if_neg ?hcond, if_neg hk]
      case hcond =>
        rintro (h | h | ⟨hK, _⟩)
        · exact hc8 h
        · exact hc9 h
        · exact hk hK
    · exact abs_truncInt_scale_div_sub_lt 10 x (by norm_num)
  · intro v
    have h := abs_truncInt_scale_div_sub_lt 1000 v (by norm_num)
    simpa [IAFParser.parse_geodetic, IAFWriter.fill_geodetic] using h

/-- Witness for C1: at sample value 0.09 the hypotheses hold concretely
(`truncInt (0.9) = 0` is no sentinel) and the theorem applies. -/
theorem C1_roundtrip_resolution_witness :
    (("X" : String) ≠ "K" ∧ truncInt ((9 / 100 : ℚ) * 10) ≠ 888888 ∧
      truncInt ((9 / 100 : ℚ) * 10) ≠ 999999) ∧
    (IAFParser.minute_roundtrip "X" [some (9 / 100)]
        = [some ((truncInt ((9 / 100 : ℚ) * 10) : ℚ) / 10)] ∧
      |((truncInt ((9 / 100 : ℚ) * 10) : ℚ) / 10) - 9 / 100| < 1 / 10) := by
  have h0 : truncInt ((9 / 100 : ℚ) * 10) = 0 := by
    rw [show ((9 : ℚ) / 100) * 10 = 9 / 10 by norm_num]
    exact truncInt_nine_tenths
  have h8 : truncInt ((9 / 100 : ℚ) * 10) ≠ 888888 := by rw [h0]; decide
  have h9 : truncInt ((9 / 100 : ℚ) * 10) ≠ 999999 := by rw [h0]; decide
  exact ⟨⟨by decide, h8, h9⟩,
    C1_roundtrip_resolution.1 "X" (9 / 100) (by decide) h8 h9⟩

/-- C1 (counterexample to the claim as stated): the sample 0.09 encodes to
`int(0.9) = 0` and decodes back to 0.0, an error of 0.09 > 0.05; and the
geodetic header value 45.0001 encodes to `int(45000.1) = 45000` and
decodes to 45.0, so the header is not reproduced exactly either. -/
theorem C1_counterexample_exceeds_claimed_bound :
    IAFParser.minute_roundtrip "X" [some (9 / 100)] = [some 0] ∧
    ¬ (|(0 : ℚ) - 9 / 100| ≤ 1 / 20) ∧
    IAFParser.parse_geodetic (IAFWriter.fill_geodetic (450001 / 10000)) = 45 ∧
    ((45 : ℚ) ≠ 450001 / 10000) := by
  have h0 : truncInt ((9 / 100 : ℚ) * 10) = 0 := by
    rw [show ((9 : ℚ) / 100) * 10 = 9 / 10 by norm_num]
    exact truncInt_nine_tenths
  refine ⟨?_, ?_, ?_, by norm_num⟩
  · unfold IAFParser.minute_roundtrip
    rw [IAFWriter.fill_minute_channel_eq]
    simp only [List.map]
    rw [h0]
    rw [IAFParser.post_process_channel_eq]
    have hxk : ¬ (("X" : String) = "K") := by decide
    simp only [List.map]
    rw [if_neg (by push_neg; refine ⟨by norm_num, by norm_num, fun h => absurd h hxk⟩)]
    rw [if_neg hxk]
    norm_num
  · rw [zero_sub, abs_neg, abs_of_pos (by norm_num)]
    norm_num
  · unfold IAFParser.parse_geodetic IAFWriter.fill_geodetic
    rw [show ((450001 : ℚ) / 10000) * 1000 = 450001 / 10 by norm_num]
    rw [show truncInt ((450001 : ℚ) / 10) = 45000 from ?_]
    · norm_num
    · unfold truncInt
      rw [if_pos (by norm_num), Int.floor_eq_iff]
      constructor <;> norm_num

end Geomag

/-! ## C4: version ≥ 2 channel reconciliation -/

namespace Geomag

/-- C4: evaluating `_clean_G_F_channels` on a version-2.0 `XYZG` stream
with a sample where delta-F is missing but the vector intensity is present
(X=3, Y=0, Z=4, G=NaN): instead of substituting the negated delta value
into the scalar series and marking delta-F missing, the substitution loop
raises an IndexError, because `fs[value] = -deltaf[0][value]` indexes the
scalar sample `deltaf[0]`; the next line would in any case assign the
*function* `numpy.isnan` — not NaN — to the delta channel, contradicting
the code's own comment "copy fs values out of msg and change deltaf to
nan". -/
theorem C4_reconciliation_crashes_on_missing_deltaf :
    IAFFactory.clean_G_F_channels false 2 "XYZG"
      [⟨"X", [some 3]⟩, ⟨"Y", [some 0]⟩, ⟨"Z", [some 4]⟩, ⟨"G", [none]⟩]
      = .error "IndexError: invalid index to scalar variable" := by
  unfold IAFFactory.clean_G_F_channels
  rw [if_neg (by norm_num), if_pos ⟨by norm_num, Or.inl rfl⟩]
  rfl

end Geomag

/-! ## C6: per-channel gap detection -/

namespace Geomag.TimeseriesUtility

open Geomag.Controller (Gap)

theorem gapsLoopAux_eq (st δ : ℚ) :
    ∀ (rest : List (Option ℚ)) (i : ℕ) (state : Option ℕ) (gaps : List Gap),
      (∀ s, state = some s → s < i) →
      gapsLoopAux st δ rest i (state.map (fun s : ℕ => st + (s : ℚ) * δ)) gaps =
        gaps ++ (missingRunsAux rest i state).map (runTriple st δ) := by
  intro rest
  induction rest with
  | nil =>
    intro i state gaps hstate
    cases state with
    | none => simp [gapsLoopAux, missingRunsAux]
    | some s =>
      have hsi : s < i := hstate s rfl
      have h1 : ((i - 1 : ℕ) : ℚ) = (i : ℚ) - 1 := by
        rw [Nat.cast_sub (by omega : 1 ≤ i)]
        norm_num
      simp only [Option.map_some, gapsLoopAux, missingRunsAux, List.map]
      unfold runTriple
      rw [h1]
      norm_num
  | cons x rest ih =>
    intro i state gaps hstate
    cases x with
    | none =>
      cases state with
      | none =>
        simp only [Option.map_none, gapsLoopAux, missingRunsAux]
        have h := ih (i + 1) (some i) gaps (fun s hs => by cases hs; omega)
        simp only [Option.map] at h
        exact h
      | some s =>
        have hsi : s < i := hstate s rfl
        simp only [Option.map_some, gapsLoopAux, missingRunsAux]
        have h := ih (i + 1) (some s) gaps (fun s2 hs2 => by cases hs2; omega)
        simp only [Option.map] at h
        exact h
    | some v =>
      cases state with
      | none =>
        simp only [Option.map_none, gapsLoopAux, missingRunsAux]
        have h := ih (i + 1) none gaps (fun s hs => by cases hs)
        simp only [Option.map] at h
        exact h
      | some s =>
        have hsi : s < i := hstate s rfl
        have h1 : ((i - 1 : ℕ) : ℚ) = (i : ℚ) - 1 := by
          rw [Nat.cast_sub (by omega : 1 ≤ i)]
          norm_num
        simp only [Option.map_some, gapsLoopAux, missingRunsAux, List.map]
        have h := ih (i + 1) none
          (gaps ++ [(⟨st + (s : ℚ) * δ, st + ((i : ℚ) - 1) * δ, st + (i : ℚ) * δ⟩ : Gap)])
          (fun s2 hs2 => by cases hs2)
        simp only [Option.map] at h
        rw [h, List.append_assoc]
        congr 1
        rw [List.singleton_append]
        congr 1
        unfold runTriple
        rw [h1]
        norm_num

/-- The scan of `get_trace_gaps` produces exactly one gap triple per
maximal run of consecutive missing samples. -/
theorem get_trace_gaps_eq_missingRuns (st δ : ℚ) (data : List (Option ℚ)) :
    get_trace_gaps st δ data = (missingRuns data).map (runTriple st δ) := by
  have h := gapsLoopAux_eq st δ data 0 none [] (by intro s hs; cases hs)
  simpa [get_trace_gaps, missingRuns] using h

theorem missingRunsAux_all_some :
    ∀ (data : List (Option ℚ)) (i : ℕ), data.all Option.isSome = true →
      missingRunsAux data i none = [] := by
  intro data
  induction data with
  | nil => intro i h; rfl
  | cons x rest ih =>
    intro i h
    rw [List.all_cons, Bool.and_eq_true] at h
    cases x with
    | none => simp at h
    | some v => exact ih (i + 1) h.2

end Geomag.TimeseriesUtility

namespace Geomag

/-- C6 (amended): per-channel gap detection returns one gap triple per
maximal run of consecutive missing samples, in index (time) order, where
the triple is `[start, end, next]` with `start` the first missing sample's
nominal timestamp, `end` the *last missing sample's* timestamp (inclusive,
not one period past it), and the next-sample marker one sampling period
after `end` (so `next = end + delta`, not `next = end`); a trailing run is
reported the same way, ending at the last sample with the marker one
period past the series; a trace with no missing samples yields an empty
list. -/
theorem C6_trace_gaps_structure :
    (∀ (st δ : ℚ) (data : List (Option ℚ)),
      TimeseriesUtility.get_trace_gaps st δ data =
        (TimeseriesUtility.missingRuns data).map (TimeseriesUtility.runTriple st δ)) ∧
    (∀ (st δ : ℚ) (data : List (Option ℚ)),
      data.all Option.isSome = true →
      TimeseriesUtility.get_trace_gaps st δ data = []) := by
  refine ⟨TimeseriesUtility.get_trace_gaps_eq_missingRuns, ?_⟩
  intro st δ data h
  rw [TimeseriesUtility.get_trace_gaps_eq_missingRuns]
  unfold TimeseriesUtility.missingRuns
  rw [TimeseriesUtility.missingRunsAux_all_some data 0 h]
  rfl

/-- Witness for C6: a fully-present one-sample trace has no gaps. -/
theorem C6_trace_gaps_structure_witness :
    (([some (1 : ℚ)] : List (Option ℚ)).all Option.isSome = true) ∧
    TimeseriesUtility.get_trace_gaps 0 60 [some (1 : ℚ)] = [] :=
  ⟨rfl, C6_trace_gaps_structure.2 0 60 [some (1 : ℚ)] rfl⟩

/-- C6 (counterexample to the claim as stated): for a trace starting at 0
with 60-second sampling and samples `[present, missing, missing,
present]`, the code returns the gap triple `[60, 120, 180]` — the stored
gap end `120` is the timestamp of the last missing sample, not one
sampling period after it, and the next-sample marker `180 = end + delta`
differs from the end; the claim's predicted triple `[60, 180, 180]` is not
what the code produces. -/
theorem C6_counterexample_gap_end_is_last_missing_sample :
    TimeseriesUtility.get_trace_gaps 0 60 [some 1, none, none, some 1]
        = [⟨60, 120, 180⟩] ∧
    ¬ (TimeseriesUtility.get_trace_gaps 0 60 [some 1, none, none, some 1]
        = [⟨60, 180, 180⟩]) := by
  have h : TimeseriesUtility.get_trace_gaps 0 60 [some 1, none, none, some 1]
      = [⟨60, 120, 180⟩] := by
    unfold TimeseriesUtility.get_trace_gaps
    simp only [TimeseriesUtility.gapsLoopAux]
    norm_num [Controller.Gap.mk.injEq]
  refine ⟨h, ?_⟩
  rw [h]
  intro hc
  rw [List.cons.injEq, Controller.Gap.mk.injEq] at hc
  norm_num at hc

end Geomag

/-! ## C7: cross-channel gap merging -/

namespace Geomag.TimeseriesUtility

open Geomag.Controller (Gap)

theorem sortGapsLE_iff (a b : Gap) : sortGapsLE a b = true ↔ a.gstart ≤ b.gstart := by
  simp [sortGapsLE]

/-- Invariant of the merge sweep: starting from a well-formed current
merged gap `m` that precedes every remaining (sorted) gap, with an
accumulator of closed gaps that all end before `m` starts, every output
gap is well formed and consecutive outputs satisfy
`previous.gnext < following.gstart`. -/
theorem mergeSweep_invariant :
    ∀ (l : List Gap) (m : Gap) (acc : List Gap),
      (∀ g ∈ l, wfGap g) → wfGap m →
      (∀ g ∈ l, m.gstart ≤ g.gstart) →
      List.Pairwise (fun a b : Gap => a.gstart ≤ b.gstart) l →
      (∀ a ∈ acc, wfGap a ∧ a.gnext < m.gstart) →
      List.Pairwise (fun a b : Gap => a.gnext < b.gstart) acc →
      (∀ a ∈ mergeSweep l (some m) acc, wfGap a) ∧
      List.Pairwise (fun a b : Gap => a.gnext < b.gstart) (mergeSweep l (some m) acc) := by
  intro l
  induction l with
  | nil =>
    intro m acc hwl hwm hms hsort hacc haccp
    simp only [mergeSweep]
    constructor
    · intro a ha
      rcases List.mem_append.mp ha with h | h
      · exact (hacc a h).1
      · rw [List.mem_singleton] at h
        subst h
        exact hwm
    · rw [List.pairwise_append]
      refine ⟨haccp, List.pairwise_singleton _ _, ?_⟩
      intro a ha b hb
      rw [List.mem_singleton] at hb
      subst hb
      exact (hacc a ha).2
  | cons g rest ih =>
    intro m acc hwl hwm hms hsort hacc haccp
    have hwg : wfGap g := hwl g (List.mem_cons_self _ _)
    have hwrest : ∀ x ∈ rest, wfGap x := fun x hx => hwl x (List.mem_cons_of_mem _ hx)
    have hgrest : ∀ x ∈ rest, g.gstart ≤ x.gstart := (List.pairwise_cons.mp hsort).1
    have hsrest : List.Pairwise (fun a b : Gap => a.gstart ≤ b.gstart) rest :=
      (List.pairwise_cons.mp hsort).2
    have hmrest : ∀ x ∈ rest, m.gstart ≤ x.gstart :=
      fun x hx => hms x (List.mem_cons_of_mem _ hx)
    simp only [mergeSweep]
    split_ifs with h1 h2
    · apply ih g (acc ++ [m]) hwrest hwg hgrest hsrest
      · intro a ha
        rcases List.mem_append.mp ha with h | h
        · exact ⟨(hacc a h).1,
            lt_trans ((hacc a h).2.trans_le (hwm.1.trans hwm.2)) h1⟩
        · rw [List.mem_singleton] at h
          subst h
          exact ⟨hwm, h1⟩
      · rw [List.pairwise_append]
        refine ⟨haccp, List.pairwise_singleton _ _, ?_⟩
        intro a ha b hb
        rw [List.mem_singleton] at hb
        subst hb
        exact (hacc a ha).2
    · apply ih ⟨m.gstart, g.gend, g.gnext⟩ acc hwrest
        ⟨hwm.1.trans (le_of_lt h2), hwg.2⟩ hmrest hsrest
        (fun a ha => hacc a ha) haccp
    · exact ih m acc hwrest hwm hmrest hsrest hacc haccp

/-- The merged gap set is made of well-formed gaps with each one's
next-sample marker strictly before the next one's start. -/
theorem get_merged_gaps_sorted_disjoint (gaps : List (String × List Gap))
    (hwf : ∀ p ∈ gaps, ∀ g ∈ p.2, wfGap g) :
    (∀ g ∈ get_merged_gaps gaps, wfGap g) ∧
    List.Pairwise (fun a b : Gap => a.gnext < b.gstart) (get_merged_gaps gaps) := by
  unfold get_merged_gaps
  have hwfflat : ∀ g ∈ (gaps.map Prod.snd).flatten, wfGap g := by
    intro g hg
    rw [List.mem_flatten] at hg
    obtain ⟨l, hl, hgl⟩ := hg
    rw [List.mem_map] at hl
    obtain ⟨p, hp, rfl⟩ := hl
    exact hwf p hp g hgl
  have htrans : ∀ a b c : Gap,
      sortGapsLE a b = true → sortGapsLE b c = true → sortGapsLE a c = true := by
    intro a b c hab hbc
    rw [sortGapsLE_iff] at hab hbc ⊢
    exact le_trans hab hbc
  have htotal : ∀ a b : Gap, (sortGapsLE a b || sortGapsLE b a) = true := by
    intro a b
    rw [Bool.or_eq_true, sortGapsLE_iff, sortGapsLE_iff]
    exact le_total _ _
  have hperm := List.mergeSort_perm ((gaps.map Prod.snd).flatten) sortGapsLE
  have hwfsorted : ∀ g ∈ ((gaps.map Prod.snd).flatten).mergeSort sortGapsLE, wfGap g :=
    fun g hg => hwfflat g (hperm.mem_iff.mp hg)
  have hsorted := List.sorted_mergeSort htrans htotal ((gaps.map Prod.snd).flatten)
  have hsorted' : List.Pairwise (fun a b : Gap => a.gstart ≤ b.gstart)
      (((gaps.map Prod.snd).flatten).mergeSort sortGapsLE) := by
    apply hsorted.imp
    intro a b h
    exact (sortGapsLE_iff a b).mp h
  rcases hsl : ((gaps.map Prod.snd).flatten).mergeSort sortGapsLE with _ | ⟨g, rest⟩
  · constructor <;> simp [mergeSweep]
  · rw [hsl] at hwfsorted hsorted'
    simp only [mergeSweep]
    apply mergeSweep_invariant rest g []
      (fun x hx => hwfsorted x (List.mem_cons_of_mem _ hx))
      (hwfsorted g (List.mem_cons_self _ _))
      (List.pairwise_cons.mp hsorted').1
      (List.pairwise_cons.mp hsorted').2
      (fun a ha => absurd ha (List.not_mem_nil a))
      List.Pairwise.nil

end Geomag.TimeseriesUtility

namespace Geomag

open Geomag.Controller (Gap)
open Geomag.TimeseriesUtility

/-- C7: merging flattens all channels' gaps, sorts them by start, and
coalesces any gap whose start is at or before the current merged gap's
next-sample marker, extending the end to the larger of the two; the
claim's two examples hold (with the triple representation `[start, end,
next]` the spec's intervals `[10,20)` and `[15,25)` are `⟨10,20,20⟩` and
`⟨15,25,25⟩`), and for any well-formed per-channel gap dictionary the
merged gaps are ordered by start and pairwise non-overlapping (each gap
ends strictly before the next begins). -/
theorem C7_merged_gaps :
    (get_merged_gaps [("X", [(⟨10, 20, 20⟩ : Gap)]), ("Y", [⟨15, 25, 25⟩])]
        = [⟨10, 25, 25⟩]) ∧
    (get_merged_gaps [("X", [(⟨10, 20, 20⟩ : Gap)]), ("Y", [⟨30, 40, 40⟩])]
        = [⟨10, 20, 20⟩, ⟨30, 40, 40⟩]) ∧
    ∀ gaps : List (String × List Gap),
      (∀ p ∈ gaps, ∀ g ∈ p.2, wfGap g) →
      List.Pairwise (fun a b : Gap => a.gstart ≤ b.gstart ∧ a.gend < b.gstart)
        (get_merged_gaps gaps) := by
  refine ⟨?_, ?_, ?_⟩
  · unfold get_merged_gaps
    rw [show (([("X", [(⟨10, 20, 20⟩ : Gap)]), ("Y", [⟨15, 25, 25⟩])].map
        Prod.snd).flatten) = [⟨10, 20, 20⟩, ⟨15, 25, 25⟩] from rfl]
    rw [List.mergeSort_of_sorted ?sorted1]
    case sorted1 =>
      refine List.Pairwise.cons ?_ (List.pairwise_singleton _ _)
      intro b hb
      rw [List.mem_singleton] at hb
      subst hb
      rw [sortGapsLE_iff]
      norm_num
    simp only [mergeSweep]
    rw [if_neg (by norm_num), if_pos (by norm_num)]
    simp [mergeSweep]
  · unfold get_merged_gaps
    rw [show (([("X", [(⟨10, 20, 20⟩ : Gap)]), ("Y", [⟨30, 40, 40⟩])].map
        Prod.snd).flatten) = [⟨10, 20, 20⟩, ⟨30, 40, 40⟩] from rfl]
    rw [List.mergeSort_of_sorted ?sorted2]
    case sorted2 =>
      refine List.Pairwise.cons ?_ (List.pairwise_singleton _ _)
      intro b hb
      rw [List.mem_singleton] at hb
      subst hb
      rw [sortGapsLE_iff]
      norm_num
    simp only [mergeSweep]
    rw [if_pos (by norm_num)]
    simp [mergeSweep]
  · intro gaps h
    obtain ⟨hwf, hpw⟩ := get_merged_gaps_sorted_disjoint gaps h
    refine hpw.imp_of_mem ?_
    intro a b ha hb hrel
    have hwa := hwf a ha
    exact ⟨hwa.1.trans (hwa.2.trans (le_of_lt hrel)), lt_of_le_of_lt hwa.2 hrel⟩

/-- Witness for C7: the well-formedness hypothesis holds for the concrete
example dictionary, and the theorem yields the ordering property there. -/
theorem C7_merged_gaps_witness :
    (∀ p ∈ [("X", [(⟨10, 20, 20⟩ : Gap)]), ("Y", [⟨15, 25, 25⟩])],
      ∀ g ∈ p.2, wfGap g) ∧
    List.Pairwise (fun a b : Gap => a.gstart ≤ b.gstart ∧ a.gend < b.gstart)
      (get_merged_gaps [("X", [(⟨10, 20, 20⟩ : Gap)]), ("Y", [⟨15, 25, 25⟩])]) := by
  have hwf : ∀ p ∈ [("X", [(⟨10, 20, 20⟩ : Gap)]), ("Y", [⟨15, 25, 25⟩])],
      ∀ g ∈ p.2, wfGap g := by
    intro p hp g hg
    rcases List.mem_cons.mp hp with rfl | hp2
    · rw [List.mem_singleton] at hg
      subst hg
      exact ⟨by norm_num, by norm_num⟩
    · rw [List.mem_singleton] at hp2
      subst hp2
      rw [List.mem_singleton] at hg
      subst hg
      exact ⟨by norm_num, by norm_num⟩
  exact ⟨hwf, C7_merged_gaps.2.2 _ hwf⟩

end Geomag
